import Mathlib

/-!
# A verification model of `propertyestimator/utils/statistics.py`

This file gives a shallow embedding, in Lean 4, of the statistics module of
the `propertyestimator` package: the `StatisticsArray` observable container
and the stratified `bootstrap` estimator.  Python floats are modelled as
rationals (`ℚ`), numpy arrays as lists, Python exceptions as `Except`
errors, and the process-wide random source as an explicit oracle
`rng : Nat → Nat` whose draws are reduced modulo the requested range.
-/

/-- The exceptions that `bootstrap` can raise:
`noData` models `ValueError('There is no data to bootstrap')`,
`unequalLengths` the `assert data_size == len(data_kwargs[keyword])` failure,
`badSubCounts` the `assert data_sub_counts.sum() == data_size` failure, and
`indexError` a numpy `IndexError` raised while building a resample. -/
inductive BootErr where
  | noData
  | unequalLengths
  | badSubCounts
  | indexError
  deriving DecidableEq, Repr

/-- numpy `ndarray.mean()` for a 1-d array, as used on `average_values`
(which always has length `iterations ≥ 1` in the claims considered). -/
def npMean (xs : List ℚ) : ℚ := xs.sum / xs.length

/-- The square of numpy `ndarray.std()` (population formula, `ddof = 0`):
the mean of the squared deviations from the mean.  The standard deviation
returned by the source on line 382 is the (real) square root of this value;
it is kept at the variance level so the model stays computable. -/
def npVar (xs : List ℚ) : ℚ :=
  ((xs.map (fun x => (x - npMean xs) ^ 2)).sum) / xs.length

/-- `np.zeros(x.shape)` for a 1-d array `x`: an array of the same length
filled with zeros. -/
def npZerosLike (xs : List ℚ) : List ℚ := xs.map (fun _ => 0)

/-- `np.random.choice(n, s)`: `s` independent uniform draws from
`[0, n)`, with replacement.  The process-wide random source is the oracle
`rng`; draw number `k + i` is reduced modulo `n`, which makes every drawn
index smaller than `n` whenever `n > 0` (and no draws happen when `s = 0`). -/
def choiceList (rng : Nat → Nat) (k n s : Nat) : List Nat :=
  (List.range s).map (fun i => rng (k + i) % n)

/-- numpy fancy indexing `xs[idxs]` for a 1-d array: select the entries at
the given positions, raising `IndexError` if any position is out of range. -/
def npFancy (xs : List ℚ) (idxs : List Nat) : Except BootErr (List ℚ) :=
  idxs.mapM (fun i =>
    match xs[i]? with
    | some v => Except.ok v
    | none => Except.error BootErr.indexError)

/-- `sample_size = min(math.floor(sub_count * relative_sample_size), sub_count)`
(source line 367).  For the non-negative sample fractions the claims
consider, `Int.toNat` of the floor agrees with Python's `math.floor`. -/
def sampleSizeOf (r : ℚ) (subCount : Nat) : Nat :=
  min (Int.toNat (Rat.floor ((subCount : ℚ) * r))) subCount

/-- Writing a list of values into consecutive slots of an array, starting at
`start`: the element-by-element stores of source line 375. -/
def setSlice : List ℚ → Nat → List ℚ → List ℚ
  | dest, _, [] => dest
  | dest, start, v :: vs => setSlice (dest.set start v) (start + 1) vs

/-- The inner loop of source lines 374–375:
`for index in range(sub_count): sample[index + start] = picked[index]`.
It succeeds only when `picked` (that is, `sub_data[sample_indices]`, of
length `sample_size`) has at least `sub_count` entries and all the written
positions exist; otherwise numpy raises an `IndexError`. -/
def writeRange (dest : List ℚ) (start subCount : Nat) (picked : List ℚ) :
    Except BootErr (List ℚ) :=
  if subCount ≤ picked.length ∧ (subCount = 0 ∨ start + subCount ≤ dest.length) then
    Except.ok (setSlice dest start (picked.take subCount))
  else Except.error BootErr.indexError

/-- Resampling one named array for one group (source lines 372–375):
slice out the group's span, fancy-index it with the drawn sample indices,
and write the result back at the same absolute positions of `dest`. -/
def groupResampleArray (start subCount : Nat) (sampleIndices : List Nat)
    (d dest : List ℚ) : Except BootErr (List ℚ) :=
  match npFancy ((d.drop start).take subCount) sampleIndices with
  | Except.error e => Except.error e
  | Except.ok picked => writeRange dest start subCount picked

/-- The loop over groups of one bootstrap trial (source lines 362–377).
`dataVals` are the values of `data_to_bootstrap` (in dict order) and
`sample` the values of `sample_data` (same keys, same order, so the
per-keyword dict updates are a map over the zipped value lists).
`start` is `start_index` and `k` the number of random draws consumed. -/
def trialGroups (r : ℚ) (rng : Nat → Nat) :
    List Nat → Nat → Nat → List (List ℚ) → List (List ℚ) →
    Except BootErr (List (List ℚ))
  | [], _, _, _, sample => Except.ok sample
  | c :: cs, start, k, dataVals, sample =>
      match (dataVals.zip sample).mapM
        (fun p => groupResampleArray start c
          (choiceList rng k c (sampleSizeOf r c)) p.1 p.2) with
      | Except.error e => Except.error e
      | Except.ok sample2 =>
          trialGroups r rng cs (start + c) (k + sampleSizeOf r c) dataVals sample2

/-- One bootstrap iteration (source lines 357–377): initialise
`sample_data` to zero arrays of the same shapes, then resample each group
in place. -/
def oneTrial (r : ℚ) (rng : Nat → Nat) (k : Nat) (dataVals : List (List ℚ))
    (counts : List Nat) : Except BootErr (List (List ℚ)) :=
  trialGroups r rng counts 0 k dataVals (dataVals.map npZerosLike)

/-- The number of random draws one trial consumes: one
`np.random.choice(c, sampleSizeOf r c)` call per group. -/
def drawsPerTrial (r : ℚ) (counts : List Nat) : Nat :=
  (counts.map (sampleSizeOf r)).sum

/-- The loop over bootstrap iterations (source lines 355–379), producing
`average_values`: the aggregation function applied to each trial's
`sample_data` dict. -/
def runTrials (f : List (String × List ℚ) → ℚ) (r : ℚ) (rng : Nat → Nat)
    (keys : List String) (dataVals : List (List ℚ)) (counts : List Nat) :
    Nat → Nat → Except BootErr (List ℚ)
  | 0, _ => Except.ok []
  | Nat.succ t, k =>
      match oneTrial r rng k dataVals counts with
      | Except.error e => Except.error e
      | Except.ok sample =>
          match runTrials f r rng keys dataVals counts t
              (k + drawsPerTrial r counts) with
          | Except.error e => Except.error e
          | Except.ok rest => Except.ok (f (keys.zip sample) :: rest)

/-- `data_size`: the length of the first named array (source lines 343–344). -/
def pyDataSize (data : List (String × List ℚ)) : Nat :=
  ((data.head?).map (fun p => p.2.length)).getD 0

/-- `data_sub_counts` after the default is applied (source lines 348–349). -/
def pyCounts (dsc : Option (List Nat)) (data : List (String × List ℚ)) : List Nat :=
  dsc.getD [pyDataSize data]

/-- The `bootstrap` function of source lines 294–390.  `f` is the
aggregation function (receiving the named sample arrays), `iterations`,
`r = relative_sample_size` and `dsc = data_sub_counts` are the keyword
parameters, `dataKwargs` the named input arrays in dict order, and `rng`
the random oracle.  `np.array(...)` copies the inputs; in this pure model
a copy is value-identical to the original, so `data_to_bootstrap` is
`dataKwargs` itself.  On success the model returns
`(average_value, average_values)`; the source returns
`(average_value, average_values.std())`, and the standard deviation is
expressed in the theorems as the real square root of `npVar` of the
second component. -/
def bootstrap (f : List (String × List ℚ) → ℚ) (iterations : Nat) (r : ℚ)
    (dsc : Option (List Nat)) (dataKwargs : List (String × List ℚ))
    (rng : Nat → Nat) : Except BootErr (ℚ × List ℚ) :=
  if dataKwargs.isEmpty then Except.error BootErr.noData
  else if dataKwargs.any (fun p => p.2.length ≠ pyDataSize dataKwargs) then
    Except.error BootErr.unequalLengths
  else if (pyCounts dsc dataKwargs).sum ≠ pyDataSize dataKwargs then
    Except.error BootErr.badSubCounts
  else
    match runTrials f r rng (dataKwargs.map Prod.fst) (dataKwargs.map Prod.snd)
        (pyCounts dsc dataKwargs) iterations 0 with
    | Except.error e => Except.error e
    | Except.ok avs => Except.ok (f dataKwargs, avs)

/-- The `ObservableType` enumeration (source lines 14–25). -/
inductive ObservableType where
  | PotentialEnergy
  | KineticEnergy
  | TotalEnergy
  | Temperature
  | Volume
  | Density
  | Enthalpy
  deriving DecidableEq, Repr

/-- A numpy array as stored in a `StatisticsArray` channel: either a 1-d
array of quantities (`flat`, magnitudes in the channel's canonical unit)
or an array of sub-arrays (`nest`, produced for example by indexing with
`None`, which inserts a new leading axis). -/
inductive NpData where
  | flat : List ℚ → NpData
  | nest : List NpData → NpData

/-- `len(...)` of a numpy array: the extent of the leading axis. -/
def npLen : NpData → Nat
  | NpData.flat xs => xs.length
  | NpData.nest xss => xss.length

/-- Python-level exceptions raised by the `StatisticsArray` methods:
`typeError` models `TypeError` (e.g. subscripting or dividing `None`),
`indexError` a numpy `IndexError`, and `valueError` the `ValueError`s
raised for missing columns or malformed tabular data. -/
inductive PyErr where
  | typeError
  | indexError
  | valueError
  deriving DecidableEq, Repr

/-- numpy subscripting `a[idx]` with `idx` either `None` or a list of
ints, as used by `from_statistics_array` (source lines 283–289).
`a[None]` inserts a new leading axis (a 1 × shape(a) array); `a[list]`
selects the rows at the listed positions, raising `IndexError` when a
position is out of range. -/
def npSubscript (a : NpData) (idx : Option (List Nat)) : Except PyErr NpData :=
  match idx with
  | none => Except.ok (NpData.nest [a])
  | some is =>
    match a with
    | NpData.flat xs => do
        let vs ← is.mapM (fun i =>
          match xs[i]? with
          | some v => Except.ok v
          | none => Except.error PyErr.indexError)
        Except.ok (NpData.flat vs)
    | NpData.nest xss => do
        let vs ← is.mapM (fun i =>
          match xss[i]? with
          | some v => Except.ok v
          | none => Except.error PyErr.indexError)
        Except.ok (NpData.nest vs)

/-- Subscripting the value stored for a channel: if the channel was never
supplied the stored value is Python's `None`, and `None[idx]` raises a
`TypeError` (`'NoneType' object is not subscriptable`). -/
def npSubscriptChannel (c : Option NpData) (idx : Option (List Nat)) :
    Except PyErr NpData :=
  match c with
  | none => Except.error PyErr.typeError
  | some a => npSubscript a idx

/-- The `StatisticsArray` object (source lines 28–49): its
`_internal_data` dict always holds exactly the seven `ObservableType`
keys, each mapped to either an array or Python's `None` (modelled by
`Option NpData`).  The seven fields are the dict's values in insertion
order. -/
structure StatisticsArray where
  potentialEnergies : Option NpData
  kineticEnergies : Option NpData
  totalEnergies : Option NpData
  temperatures : Option NpData
  volumes : Option NpData
  densities : Option NpData
  enthalpies : Option NpData

/-- The key set of `_internal_data`: the constructor (source lines 41–49)
always inserts all seven observable types, whether or not data was
supplied for them. -/
def StatisticsArray.keys : List ObservableType :=
  [ObservableType.PotentialEnergy, ObservableType.KineticEnergy,
   ObservableType.TotalEnergy, ObservableType.Temperature,
   ObservableType.Volume, ObservableType.Density, ObservableType.Enthalpy]

/-- The value stored in `_internal_data` for a given key. -/
def StatisticsArray.lookupData (a : StatisticsArray) : ObservableType → Option NpData
  | ObservableType.PotentialEnergy => a.potentialEnergies
  | ObservableType.KineticEnergy => a.kineticEnergies
  | ObservableType.TotalEnergy => a.totalEnergies
  | ObservableType.Temperature => a.temperatures
  | ObservableType.Volume => a.volumes
  | ObservableType.Density => a.densities
  | ObservableType.Enthalpy => a.enthalpies

/-- `has_observable` (source lines 80–93): the membership test
`observable_type in self._internal_data`, i.e. membership in the dict's
key set. -/
def StatisticsArray.hasObservable (_a : StatisticsArray) (t : ObservableType) : Bool :=
  StatisticsArray.keys.contains t

/-- `get_observable` (source lines 61–78): return `None` when
`has_observable` is false, otherwise the stored dict value (which may
itself be Python's `None` when the channel was never supplied). -/
def StatisticsArray.getObservable (a : StatisticsArray) (t : ObservableType) :
    Option NpData :=
  if a.hasObservable t then a.lookupData t else none

/-- `__len__` (source lines 51–59): `len` of the PotentialEnergy entry of
the dict; `len(None)` raises a `TypeError`. -/
def StatisticsArray.pyLen (a : StatisticsArray) : Except PyErr Nat :=
  match a.potentialEnergies with
  | none => Except.error PyErr.typeError
  | some d => Except.ok (npLen d)

/-- `from_statistics_array` (source lines 254–291): deep-copy every
channel of the existing instance (value-identity in this pure model) and
build a new `StatisticsArray` from each channel subscripted with
`data_indices`.  The subscript arguments are evaluated left to right, so
the first `None`-valued channel raises the `TypeError`. -/
def fromStatisticsArray (existing : StatisticsArray)
    (dataIndices : Option (List Nat)) : Except PyErr StatisticsArray := do
  let pe ← npSubscriptChannel (existing.getObservable ObservableType.PotentialEnergy) dataIndices
  let ke ← npSubscriptChannel (existing.getObservable ObservableType.KineticEnergy) dataIndices
  let te ← npSubscriptChannel (existing.getObservable ObservableType.TotalEnergy) dataIndices
  let tm ← npSubscriptChannel (existing.getObservable ObservableType.Temperature) dataIndices
  let vo ← npSubscriptChannel (existing.getObservable ObservableType.Volume) dataIndices
  let de ← npSubscriptChannel (existing.getObservable ObservableType.Density) dataIndices
  let en ← npSubscriptChannel (existing.getObservable ObservableType.Enthalpy) dataIndices
  Except.ok ⟨some pe, some ke, some te, some tm, some vo, some de, some en⟩

/-- Dividing a stored channel value by its canonical unit, as done for
each of the seven channels on source lines 105–111.  The model stores
magnitudes in the canonical units, so on a 1-d array the division just
exposes the magnitudes; `None / unit` raises a `TypeError`; a non-1-d
channel cannot form the 2-d data frame built afterwards (pandas raises). -/
def unitDiv (c : Option NpData) : Except PyErr (List ℚ) :=
  match c with
  | none => Except.error PyErr.typeError
  | some (NpData.flat xs) => Except.ok xs
  | some (NpData.nest _) => Except.error PyErr.valueError

/-- The seven column headers written by `save_as_pandas_csv`
(source lines 115–123). -/
def csvColumns : List String :=
  ["Potential Energy (kJ/mole)", "Kinetic Energy (kJ/mole)",
   "Total Energy (kJ/mole)", "Temperature (K)", "Box Volume (nm^3)",
   "Density (g/mL)", "Enthalpy (kJ/mole)"]

/-- `save_as_pandas_csv` (source lines 95–126): divide all seven channels
by their units — unconditionally, including Enthalpy — transpose into a
data frame with the seven named columns, and write it out.  The tabular
file is modelled by its content: the list of (column header, column
values) pairs. -/
def saveAsPandasCsv (a : StatisticsArray) : Except PyErr (List (String × List ℚ)) := do
  let pe ← unitDiv a.potentialEnergies
  let ke ← unitDiv a.kineticEnergies
  let te ← unitDiv a.totalEnergies
  let tm ← unitDiv a.temperatures
  let vo ← unitDiv a.volumes
  let de ← unitDiv a.densities
  let en ← unitDiv a.enthalpies
  Except.ok [("Potential Energy (kJ/mole)", pe), ("Kinetic Energy (kJ/mole)", ke),
    ("Total Energy (kJ/mole)", te), ("Temperature (K)", tm),
    ("Box Volume (nm^3)", vo), ("Density (g/mL)", de), ("Enthalpy (kJ/mole)", en)]

/-- Reading a mandatory column of the parsed csv: `raise ValueError` when
the column is missing, otherwise the column's values (re-tagged with the
canonical unit, which is the identity on magnitudes in this model). -/
def readColumn (csv : List (String × List ℚ)) (name : String) :
    Except PyErr (List ℚ) :=
  match csv.lookup name with
  | some xs => Except.ok xs
  | none => Except.error PyErr.valueError

/-- `from_pandas_csv` (source lines 195–252): require the six
energy/temperature/volume/density columns, read the Enthalpy column only
when present (`enthalpies = None` otherwise), and construct the array. -/
def fromPandasCsv (csv : List (String × List ℚ)) : Except PyErr StatisticsArray := do
  let pe ← readColumn csv "Potential Energy (kJ/mole)"
  let ke ← readColumn csv "Kinetic Energy (kJ/mole)"
  let te ← readColumn csv "Total Energy (kJ/mole)"
  let tm ← readColumn csv "Temperature (K)"
  let vo ← readColumn csv "Box Volume (nm^3)"
  let de ← readColumn csv "Density (g/mL)"
  let en := (csv.lookup "Enthalpy (kJ/mole)").map NpData.flat
  Except.ok ⟨some (NpData.flat pe), some (NpData.flat ke), some (NpData.flat te),
    some (NpData.flat tm), some (NpData.flat vo), some (NpData.flat de), en⟩

/-!
## A store-passing model of `bootstrap`

To state that `bootstrap` never mutates the caller-supplied arrays, the
numpy arrays are given identities: a store is a list of array contents and
an array is an index into it.  Every statement of the source that
allocates (`np.array`, `np.zeros`) or stores into an array
(`sample_data[keyword][...] = ...`, `average_values[...] = ...`) becomes
an explicit store operation; the caller passes the store indices of its
input arrays.  Errors carry the store at the moment the exception
propagates.
-/

/-- A heap of numpy arrays, addressed by allocation index. -/
abbrev Store := List (List ℚ)

/-- Allocate a fresh array holding `xs`; returns the new store and the
fresh index. -/
def allocA (σ : Store) (xs : List ℚ) : Store × Nat := (σ ++ [xs], σ.length)

/-- Read a whole array. -/
def readA (σ : Store) (i : Nat) : List ℚ := σ.getD i []

/-- Store a value into one cell of an array. -/
def writeA (σ : Store) (i j : Nat) (v : ℚ) : Store :=
  σ.set i ((σ.getD i []).set j v)

/-- The element stores of source lines 374–375 against the store: for
`index` from `0` while `remaining` counts down from `sub_count`, write
`picked[index]` into cell `start + index` of the array `destId`, raising
`IndexError` when `picked` runs out or the destination cell is out of
range. -/
def writeLoopS (destId start : Nat) (picked : List ℚ) :
    Store → Nat → Nat → Option BootErr × Store
  | σ, _, 0 => (none, σ)
  | σ, index, Nat.succ remaining =>
    match picked[index]? with
    | none => (some BootErr.indexError, σ)
    | some v =>
      if start + index < (readA σ destId).length then
        writeLoopS destId start picked (writeA σ destId (start + index) v)
          (index + 1) remaining
      else (some BootErr.indexError, σ)

/-- Source lines 372–375 for one keyword against the store: slice the
copied data array `srcId`, fancy-index the slice, and write the picks
into the sample array `destId`. -/
def groupResampleArrayS (start subCount : Nat) (idxs : List Nat)
    (srcId destId : Nat) (σ : Store) : Option BootErr × Store :=
  match npFancy (((readA σ srcId).drop start).take subCount) idxs with
  | Except.error e => (some e, σ)
  | Except.ok picked => writeLoopS destId start picked σ 0 subCount

/-- The `for keyword in data_to_bootstrap` loop of source lines 370–375:
`ids` pairs each keyword's copied-data array with its sample array. -/
def groupResampleDictS (start subCount : Nat) (idxs : List Nat) :
    List (Nat × Nat) → Store → Option BootErr × Store
  | [], σ => (none, σ)
  | (src, dest) :: rest, σ =>
    match groupResampleArrayS start subCount idxs src dest σ with
    | (some e, σ2) => (some e, σ2)
    | (none, σ2) => groupResampleDictS start subCount idxs rest σ2

/-- The loop over groups of one trial (source lines 362–377) against the
store. -/
def trialGroupsS (r : ℚ) (rng : Nat → Nat) (ids : List (Nat × Nat)) :
    List Nat → Nat → Nat → Store → Option BootErr × Store
  | [], _, _, σ => (none, σ)
  | c :: cs, start, k, σ =>
    let s := sampleSizeOf r c
    let is := choiceList rng k c s
    match groupResampleDictS start c is ids σ with
    | (some e, σ2) => (some e, σ2)
    | (none, σ2) => trialGroupsS r rng ids cs (start + c) (k + s) σ2

/-- Source lines 359–360: allocate a fresh zero array of each copied
array's shape for `sample_data`. -/
def allocSampleS : List (String × Nat) → Store → Store × List (String × Nat)
  | [], σ => (σ, [])
  | (kw, src) :: rest, σ =>
    let p := allocA σ (npZerosLike (readA σ src))
    let q := allocSampleS rest p.1
    (q.1, (kw, p.2) :: q.2)

/-- The iteration loop of source lines 355–379 against the store: each
iteration allocates its `sample_data` arrays, resamples every group into
them, and stores the aggregation value into slot `trialIdx` of the
`average_values` array `avId`. -/
def runTrialsS (f : List (String × List ℚ) → ℚ) (r : ℚ) (rng : Nat → Nat)
    (copyIds : List (String × Nat)) (counts : List Nat) (avId : Nat) :
    Nat → Nat → Nat → Store → Option BootErr × Store
  | 0, _, _, σ => (none, σ)
  | Nat.succ t, trialIdx, k, σ =>
    match trialGroupsS r rng ((copyIds.map Prod.snd).zip
        ((allocSampleS copyIds σ).2.map Prod.snd)) counts 0 k
        (allocSampleS copyIds σ).1 with
    | (some e, σ2) => (some e, σ2)
    | (none, σ2) =>
      runTrialsS f r rng copyIds counts avId t (trialIdx + 1)
        (k + drawsPerTrial r counts)
        (writeA σ2 avId trialIdx
          (f ((allocSampleS copyIds σ).2.map (fun p => (p.1, readA σ2 p.2)))))

/-- The copy loop of source lines 338–341: `np.array` each caller array
into a fresh allocation.  (The source interleaves the length checks with
the copies; the model copies first and checks afterwards, which differs
only in how many fresh copies exist when a length assertion fires.) -/
def copyLoopS : List (String × Nat) → Store → Store × List (String × Nat)
  | [], σ => (σ, [])
  | (kw, id) :: rest, σ =>
    let p := allocA σ (readA σ id)
    let q := copyLoopS rest p.1
    (q.1, (kw, p.2) :: q.2)

/-- `data_size` computed from the store: the length of the first named
caller array. -/
def pyDataSizeS (σ : Store) (dataIds : List (String × Nat)) : Nat :=
  ((dataIds.head?).map (fun p => (readA σ p.2).length)).getD 0

/-- `bootstrap` against the store (source lines 294–390): the caller's
named arrays are store indices `dataIds`.  Returns the result (or the
propagated exception) together with the final store. -/
def bootstrapS (f : List (String × List ℚ) → ℚ) (iterations : Nat) (r : ℚ)
    (dsc : Option (List Nat)) (dataIds : List (String × Nat))
    (rng : Nat → Nat) (σ : Store) : Except BootErr (ℚ × List ℚ) × Store :=
  if dataIds.isEmpty then (Except.error BootErr.noData, σ)
  else if dataIds.any (fun p => (readA σ p.2).length ≠ pyDataSizeS σ dataIds) then
    (Except.error BootErr.unequalLengths, (copyLoopS dataIds σ).1)
  else if (dsc.getD [pyDataSizeS σ dataIds]).sum ≠ pyDataSizeS σ dataIds then
    (Except.error BootErr.badSubCounts, (copyLoopS dataIds σ).1)
  else
    match runTrialsS f r rng (copyLoopS dataIds σ).2
        (dsc.getD [pyDataSizeS σ dataIds])
        (allocA (copyLoopS dataIds σ).1 (List.replicate iterations 0)).2
        iterations 0 0
        (allocA (copyLoopS dataIds σ).1 (List.replicate iterations 0)).1 with
    | (some e, σ3) => (Except.error e, σ3)
    | (none, σ3) =>
      (Except.ok (f ((copyLoopS dataIds σ).2.map (fun p => (p.1, readA σ3 p.2))),
        readA σ3 (allocA (copyLoopS dataIds σ).1
          (List.replicate iterations 0)).2), σ3)

/-- The three `bootstrap` failures that are input validation (raised before
any trial): empty input, unequal series lengths, bad partition sum.  A
numpy `IndexError` raised during resampling is not a validation failure. -/
def isValidationError : BootErr → Bool
  | BootErr.noData => true
  | BootErr.unequalLengths => true
  | BootErr.badSubCounts => true
  | BootErr.indexError => false

/-- Whether a finished `bootstrap` call failed with a validation error. -/
def resultValidationError : Except BootErr (ℚ × List ℚ) → Bool
  | Except.error e => isValidationError e
  | Except.ok _ => false

/-- Decidable equality of `Except` results, used to evaluate the model at
concrete inputs. -/
instance {ε α : Type} [DecidableEq ε] [DecidableEq α] :
    DecidableEq (Except ε α) := fun a b =>
  match a, b with
  | Except.error e1, Except.error e2 =>
    if h : e1 = e2 then isTrue (by rw [h])
    else isFalse (by intro hc; cases hc; exact h rfl)
  | Except.error _, Except.ok _ => isFalse (by intro hc; cases hc)
  | Except.ok _, Except.error _ => isFalse (by intro hc; cases hc)
  | Except.ok x, Except.ok y =>
    if h : x = y then isTrue (by rw [h])
    else isFalse (by intro hc; cases hc; exact h rfl)

/-- The absolute offset at which group `g` of the partition starts in the
concatenated data layout. -/
def groupStart (counts : List Nat) (g : Nat) : Nat := (counts.take g).sum

/-- An aggregation function for the examples: the arithmetic mean of the
first named series. -/
def meanOfFirst (kw : List (String × List ℚ)) : ℚ :=
  npMean (((kw.head?).map Prod.snd).getD [])

/-- A two-frame statistics array whose Enthalpy channel was never supplied
(`enthalpies = None`), as produced for example by `from_openmm_csv` without
a pressure. -/
def c6NoEnthalpy : StatisticsArray :=
  ⟨some (NpData.flat [1, 2]), some (NpData.flat [3, 4]),
   some (NpData.flat [4, 6]), some (NpData.flat [300, 301]),
   some (NpData.flat [1, 1]), some (NpData.flat [2, 2]), none⟩

/-- A three-frame statistics array without an Enthalpy channel, the source
array of the sub-series counterexample. -/
def c7SourceNoEnthalpy : StatisticsArray :=
  ⟨some (NpData.flat [1, 2, 3]), some (NpData.flat [4, 5, 6]),
   some (NpData.flat [5, 7, 9]), some (NpData.flat [300, 301, 302]),
   some (NpData.flat [1, 1, 1]), some (NpData.flat [2, 2, 2]), none⟩

/-- A three-frame statistics array without an Enthalpy channel, the input
of the export counterexample. -/
def c8ArrNoEnthalpy : StatisticsArray :=
  ⟨some (NpData.flat [2, 3, 4]), some (NpData.flat [5, 6, 7]),
   some (NpData.flat [7, 9, 11]), some (NpData.flat [300, 301, 302]),
   some (NpData.flat [1, 1, 1]), some (NpData.flat [2, 2, 2]), none⟩

/-!
## Helper lemmas about the bootstrap model
-/

theorem setSlice_length (vs : List ℚ) : ∀ (dest : List ℚ) (start : Nat),
    (setSlice dest start vs).length = dest.length := by
  induction vs with
  | nil => intro dest start; rfl
  | cons v vs ih =>
    intro dest start
    simp only [setSlice]
    rw [ih, List.length_set]

theorem setSlice_getElem?_outside (vs : List ℚ) : ∀ (dest : List ℚ) (start j : Nat),
    j < start ∨ start + vs.length ≤ j →
    (setSlice dest start vs)[j]? = dest[j]? := by
  induction vs with
  | nil => intro dest start j _; rfl
  | cons v vs ih =>
    intro dest start j h
    simp only [setSlice]
    rw [ih _ _ _ (by simp only [List.length_cons] at h; omega)]
    exact List.getElem?_set_ne (by simp only [List.length_cons] at h; omega)

theorem setSlice_getElem?_inside (vs : List ℚ) : ∀ (dest : List ℚ) (start j : Nat),
    j < vs.length → start + vs.length ≤ dest.length →
    (setSlice dest start vs)[start + j]? = vs[j]? := by
  induction vs with
  | nil => intro _ _ j h _; exact absurd h (by simp)
  | cons v vs ih =>
    intro dest start j hj hlen
    simp only [setSlice]
    cases j with
    | zero =>
      rw [setSlice_getElem?_outside vs _ _ _ (Or.inl (by omega))]
      have hs : start < dest.length := by simp only [List.length_cons] at hlen; omega
      simp only [Nat.add_zero]
      rw [List.getElem?_set_self (by omega)]
      simp
    | succ j =>
      have he : start + (j + 1) = (start + 1) + j := by omega
      rw [he, ih _ _ _ (by simp only [List.length_cons] at hj; omega)
        (by rw [List.length_set]; simp only [List.length_cons] at hlen; omega)]
      simp

theorem npFancy_ok_mem (idxs : List Nat) : ∀ (xs ps : List ℚ),
    npFancy xs idxs = Except.ok ps → ∀ v ∈ ps, v ∈ xs := by
  induction idxs with
  | nil =>
    intro xs ps h v hv
    simp only [npFancy, List.mapM_nil] at h
    cases h
    cases hv
  | cons i is ih =>
    intro xs ps h v hv
    simp only [npFancy, List.mapM_cons] at h
    cases hx : xs[i]? with
    | none => rw [hx] at h; simp [Bind.bind, Except.bind] at h
    | some w =>
      rw [hx] at h
      cases hr : List.mapM (fun i => match xs[i]? with
        | some v => Except.ok v
        | none => Except.error BootErr.indexError) is with
      | error e => rw [hr] at h; simp [Bind.bind, Except.bind] at h
      | ok ws =>
        rw [hr] at h
        simp [Bind.bind, Except.bind, pure, Except.pure] at h
        subst h
        cases hv with
        | head => exact List.getElem?_mem hx
        | tail _ hv2 => exact ih xs ws hr v hv2

theorem npFancy_ok_length (idxs : List Nat) : ∀ (xs ps : List ℚ),
    npFancy xs idxs = Except.ok ps → ps.length = idxs.length := by
  induction idxs with
  | nil =>
    intro xs ps h
    simp only [npFancy, List.mapM_nil] at h
    cases h
    rfl
  | cons i is ih =>
    intro xs ps h
    simp only [npFancy, List.mapM_cons] at h
    cases hx : xs[i]? with
    | none => rw [hx] at h; simp [Bind.bind, Except.bind] at h
    | some w =>
      rw [hx] at h
      cases hr : List.mapM (fun i => match xs[i]? with
        | some v => Except.ok v
        | none => Except.error BootErr.indexError) is with
      | error e => rw [hr] at h; simp [Bind.bind, Except.bind] at h
      | ok ws =>
        rw [hr] at h
        simp [Bind.bind, Except.bind, pure, Except.pure] at h
        subst h
        simp [ih xs ws hr]

theorem writeRange_ok {dest : List ℚ} {start c : Nat} {picked out : List ℚ}
    (h : writeRange dest start c picked = Except.ok out) :
    c ≤ picked.length ∧ (c = 0 ∨ start + c ≤ dest.length) ∧
    out = setSlice dest start (picked.take c) := by
  unfold writeRange at h
  split at h
  · next hc => cases h; exact ⟨hc.1, hc.2, rfl⟩
  · cases h

theorem groupResampleArray_ok {start c : Nat} {idxs : List Nat} {d dest out : List ℚ}
    (h : groupResampleArray start c idxs d dest = Except.ok out) :
    ∃ picked, npFancy ((d.drop start).take c) idxs = Except.ok picked ∧
      writeRange dest start c picked = Except.ok out := by
  unfold groupResampleArray at h
  cases hf : npFancy ((d.drop start).take c) idxs with
  | error e => rw [hf] at h; cases h
  | ok picked =>
    rw [hf] at h
    exact ⟨picked, rfl, h⟩

theorem groupResampleArray_ok_length {start c : Nat} {idxs : List Nat}
    {d dest out : List ℚ}
    (h : groupResampleArray start c idxs d dest = Except.ok out) :
    out.length = dest.length := by
  obtain ⟨picked, _, hw⟩ := groupResampleArray_ok h
  obtain ⟨_, _, hout⟩ := writeRange_ok hw
  rw [hout, setSlice_length]

theorem groupResampleArray_ok_outside {start c : Nat} {idxs : List Nat}
    {d dest out : List ℚ} {j : Nat}
    (h : groupResampleArray start c idxs d dest = Except.ok out)
    (hj : j < start ∨ start + c ≤ j) : out[j]? = dest[j]? := by
  obtain ⟨picked, _, hw⟩ := groupResampleArray_ok h
  obtain ⟨hc, _, hout⟩ := writeRange_ok hw
  rw [hout, setSlice_getElem?_outside]
  rcases hj with hj | hj
  · exact Or.inl hj
  · right
    have : (picked.take c).length ≤ c := List.length_take_le c picked
    omega

theorem groupResampleArray_ok_inside {start c : Nat} {idxs : List Nat}
    {d dest out : List ℚ} {j : Nat}
    (h : groupResampleArray start c idxs d dest = Except.ok out)
    (hj : j < c) :
    ∃ v, out[start + j]? = some v ∧ v ∈ (d.drop start).take c := by
  obtain ⟨picked, hf, hw⟩ := groupResampleArray_ok h
  obtain ⟨hc, hb, hout⟩ := writeRange_ok hw
  have hb2 : start + c ≤ dest.length := by rcases hb with hb | hb <;> omega
  have htl : (picked.take c).length = c := List.length_take_of_le hc
  have hjp : j < picked.length := by omega
  have hv : (picked.take c)[j]? = some picked[j] := by
    rw [List.getElem?_take_of_lt hj]
    exact List.getElem?_eq_getElem hjp
  refine ⟨picked[j], ?_, ?_⟩
  · rw [hout, setSlice_getElem?_inside _ _ _ _ (by omega) (by omega), hv]
  · exact npFancy_ok_mem idxs _ _ hf _ (List.getElem_mem hjp)

theorem mapM_resample_pointwise (start c : Nat) (idxs : List Nat) :
    ∀ (ds ss out : List (List ℚ)),
    (ds.zip ss).mapM (fun p => groupResampleArray start c idxs p.1 p.2) =
      Except.ok out →
    out.length = (ds.zip ss).length ∧
    ∀ (i : Nat) (d s : List ℚ), ds[i]? = some d → ss[i]? = some s →
      ∃ o, out[i]? = some o ∧ groupResampleArray start c idxs d s = Except.ok o := by
  intro ds
  induction ds with
  | nil =>
    intro ss out h
    simp only [List.zip_nil_left, List.mapM_nil, pure, Except.pure,
      Except.ok.injEq] at h
    subst h
    refine ⟨rfl, ?_⟩
    intro i d s hd _
    simp at hd
  | cons d0 ds ih =>
    intro ss out h
    cases ss with
    | nil =>
      simp only [List.zip_nil_right, List.mapM_nil, pure, Except.pure,
        Except.ok.injEq] at h
      subst h
      refine ⟨rfl, ?_⟩
      intro i d s _ hs
      simp at hs
    | cons s0 ss =>
      simp only [List.zip_cons_cons, List.mapM_cons] at h
      cases hg : groupResampleArray start c idxs d0 s0 with
      | error e => rw [hg] at h; simp [Bind.bind, Except.bind] at h
      | ok o0 =>
        rw [hg] at h
        cases hr : (ds.zip ss).mapM (fun p => groupResampleArray start c idxs p.1 p.2) with
        | error e => rw [hr] at h; simp [Bind.bind, Except.bind] at h
        | ok out2 =>
          rw [hr] at h
          simp only [Bind.bind, Except.bind, pure, Except.pure, Except.ok.injEq] at h
          subst h
          obtain ⟨hlen, hpt⟩ := ih ss out2 hr
          constructor
          · simp [hlen]
          · intro i d s hd hs
            cases i with
            | zero =>
              simp only [List.getElem?_cons_zero, Option.some.injEq] at hd hs
              subst hd; subst hs
              exact ⟨o0, by simp, hg⟩
            | succ i =>
              simp only [List.getElem?_cons_succ] at hd hs ⊢
              exact hpt i d s hd hs

theorem trialGroups_ok_entries (r : ℚ) (rng : Nat → Nat) :
    ∀ (cs : List Nat) (dataVals sample out : List (List ℚ)) (start k : Nat),
    sample.length = dataVals.length →
    trialGroups r rng cs start k dataVals sample = Except.ok out →
    out.length = dataVals.length ∧
    ∀ (i : Nat) (d s : List ℚ), dataVals[i]? = some d → sample[i]? = some s →
      ∃ o, out[i]? = some o ∧ o.length = s.length ∧
        ∀ pos : Nat, pos < start → o[pos]? = s[pos]? := by
  intro cs
  induction cs with
  | nil =>
    intro dataVals sample out start k hlen h
    simp only [trialGroups] at h
    cases h
    exact ⟨hlen, fun i d s _ hs => ⟨s, hs, rfl, fun _ _ => rfl⟩⟩
  | cons c cs ih =>
    intro dataVals sample out start k hlen h
    simp only [trialGroups] at h
    cases hm : (dataVals.zip sample).mapM
        (fun p => groupResampleArray start c
          (choiceList rng k c (sampleSizeOf r c)) p.1 p.2) with
    | error e => rw [hm] at h; cases h
    | ok sample2 =>
      rw [hm] at h
      obtain ⟨hl2, hpt⟩ := mapM_resample_pointwise _ _ _ _ _ _ hm
      have hlen2 : sample2.length = dataVals.length := by
        rw [hl2, List.length_zip, hlen, Nat.min_self]
      obtain ⟨hlo, hent⟩ := ih dataVals sample2 out (start + c) _ hlen2 h
      refine ⟨hlo, ?_⟩
      intro i d s hd hs
      obtain ⟨o1, ho1, hg⟩ := hpt i d s hd hs
      obtain ⟨o, ho, holen, hpres⟩ := hent i d o1 hd ho1
      refine ⟨o, ho, ?_, ?_⟩
      · rw [holen, groupResampleArray_ok_length hg]
      · intro pos hpos
        rw [hpres pos (by omega), groupResampleArray_ok_outside hg (Or.inl hpos)]

theorem trialGroups_ok_mem (r : ℚ) (rng : Nat → Nat) :
    ∀ (cs : List Nat) (dataVals sample out : List (List ℚ)) (start k : Nat),
    sample.length = dataVals.length →
    trialGroups r rng cs start k dataVals sample = Except.ok out →
    ∀ (g : Nat), g < cs.length → ∀ (j : Nat), j < cs.getD g 0 →
    ∀ (i : Nat) (d : List ℚ), dataVals[i]? = some d → i < sample.length →
      ∃ o v, out[i]? = some o ∧
        o[start + (cs.take g).sum + j]? = some v ∧
        v ∈ (d.drop (start + (cs.take g).sum)).take (cs.getD g 0) := by
  intro cs
  induction cs with
  | nil =>
    intro dataVals sample out start k _ _ g hg
    exact absurd hg (by simp)
  | cons c cs ih =>
    intro dataVals sample out start k hlen h g hg j hj i d hd hi
    simp only [trialGroups] at h
    cases hm : (dataVals.zip sample).mapM
        (fun p => groupResampleArray start c
          (choiceList rng k c (sampleSizeOf r c)) p.1 p.2) with
    | error e => rw [hm] at h; cases h
    | ok sample2 =>
      rw [hm] at h
      obtain ⟨hl2, hpt⟩ := mapM_resample_pointwise _ _ _ _ _ _ hm
      have hlen2 : sample2.length = dataVals.length := by
        rw [hl2, List.length_zip, hlen, Nat.min_self]
      have hid : i < dataVals.length := by
        by_contra hc2
        rw [List.getElem?_eq_none (by omega)] at hd
        cases hd
      obtain ⟨s, hs⟩ : ∃ s, sample[i]? = some s :=
        ⟨sample[i], List.getElem?_eq_getElem hi⟩
      obtain ⟨o1, ho1, hg1⟩ := hpt i d s hd hs
      cases g with
      | zero =>
        simp only [List.getD_eq_getElem?_getD, List.getElem?_cons_zero,
          Option.getD_some] at hj ⊢
        simp only [List.take_zero, List.sum_nil, Nat.add_zero]
        obtain ⟨v, hv, hvm⟩ := groupResampleArray_ok_inside hg1 hj
        obtain ⟨_, hent⟩ := trialGroups_ok_entries r rng cs dataVals sample2 out
          (start + c) _ hlen2 h
        obtain ⟨o, ho, _, hpres⟩ := hent i d o1 hd ho1
        exact ⟨o, v, ho, by rw [hpres _ (by omega)]; exact hv, hvm⟩
      | succ g =>
        obtain ⟨o, v, ho, hv, hvm⟩ := ih dataVals sample2 out (start + c) _
          hlen2 h g (by simpa using hg) j
          (by simpa [List.getD_eq_getElem?_getD] using hj) i d hd (by omega)
        have harith0 : start + ((c :: cs).take (g + 1)).sum
            = start + c + (cs.take g).sum := by
          simp only [List.take_succ_cons, List.sum_cons]
          omega
        have hgd : (c :: cs).getD (g + 1) 0 = cs.getD g 0 := by
          simp [List.getD_eq_getElem?_getD]
        rw [harith0, hgd]
        exact ⟨o, v, ho, hv, hvm⟩

theorem npFancy_error (idxs : List Nat) : ∀ (xs : List ℚ) (e : BootErr),
    npFancy xs idxs = Except.error e → e = BootErr.indexError := by
  induction idxs with
  | nil =>
    intro xs e h
    simp only [npFancy, List.mapM_nil] at h
    cases h
  | cons i is ih =>
    intro xs e h
    simp only [npFancy, List.mapM_cons] at h
    cases hx : xs[i]? with
    | none =>
      rw [hx] at h
      simp only [Bind.bind, Except.bind, Except.error.injEq] at h
      exact h.symm
    | some w =>
      rw [hx] at h
      cases hr : List.mapM (fun i => match xs[i]? with
        | some v => Except.ok v
        | none => Except.error BootErr.indexError) is with
      | error e2 =>
        rw [hr] at h
        simp only [Bind.bind, Except.bind, Except.error.injEq] at h
        subst h
        exact ih xs e2 hr
      | ok ws =>
        rw [hr] at h
        simp [Bind.bind, Except.bind, pure, Except.pure] at h

theorem writeRange_error {dest : List ℚ} {start c : Nat} {picked : List ℚ}
    {e : BootErr} (h : writeRange dest start c picked = Except.error e) :
    e = BootErr.indexError := by
  unfold writeRange at h
  split at h
  · cases h
  · cases h; rfl

theorem groupResampleArray_error {start c : Nat} {idxs : List Nat}
    {d dest : List ℚ} {e : BootErr}
    (h : groupResampleArray start c idxs d dest = Except.error e) :
    e = BootErr.indexError := by
  unfold groupResampleArray at h
  cases hf : npFancy ((d.drop start).take c) idxs with
  | error e2 =>
    rw [hf] at h
    cases h
    exact npFancy_error _ _ _ hf
  | ok picked =>
    rw [hf] at h
    exact writeRange_error h

theorem mapM_resample_error (start c : Nat) (idxs : List Nat) :
    ∀ (l : List (List ℚ × List ℚ)) (e : BootErr),
    l.mapM (fun p => groupResampleArray start c idxs p.1 p.2) = Except.error e →
    e = BootErr.indexError := by
  intro l
  induction l with
  | nil =>
    intro e h
    simp only [List.mapM_nil] at h
    simp [pure, Except.pure] at h
  | cons p l ih =>
    intro e h
    simp only [List.mapM_cons] at h
    cases hg : groupResampleArray start c idxs p.1 p.2 with
    | error e2 =>
      rw [hg] at h
      simp only [Bind.bind, Except.bind, Except.error.injEq] at h
      subst h
      exact groupResampleArray_error hg
    | ok o =>
      rw [hg] at h
      cases hr : l.mapM (fun p => groupResampleArray start c idxs p.1 p.2) with
      | error e2 =>
        rw [hr] at h
        simp only [Bind.bind, Except.bind, Except.error.injEq] at h
        subst h
        exact ih e2 hr
      | ok os =>
        rw [hr] at h
        simp [Bind.bind, Except.bind, pure, Except.pure] at h

theorem trialGroups_error (r : ℚ) (rng : Nat → Nat) :
    ∀ (cs : List Nat) (dataVals sample : List (List ℚ)) (start k : Nat)
    (e : BootErr),
    trialGroups r rng cs start k dataVals sample = Except.error e →
    e = BootErr.indexError := by
  intro cs
  induction cs with
  | nil =>
    intro dataVals sample start k e h
    simp only [trialGroups] at h
    cases h
  | cons c cs ih =>
    intro dataVals sample start k e h
    simp only [trialGroups] at h
    cases hm : (dataVals.zip sample).mapM
        (fun p => groupResampleArray start c
          (choiceList rng k c (sampleSizeOf r c)) p.1 p.2) with
    | error e2 =>
      rw [hm] at h
      cases h
      exact mapM_resample_error _ _ _ _ _ hm
    | ok sample2 =>
      rw [hm] at h
      exact ih dataVals sample2 _ _ e h

theorem runTrials_error (f : List (String × List ℚ) → ℚ) (r : ℚ)
    (rng : Nat → Nat) (keys : List String) (dataVals : List (List ℚ))
    (counts : List Nat) :
    ∀ (t k : Nat) (e : BootErr),
    runTrials f r rng keys dataVals counts t k = Except.error e →
    e = BootErr.indexError := by
  intro t
  induction t with
  | zero => intro k e h; simp only [runTrials] at h; cases h
  | succ t ih =>
    intro k e h
    simp only [runTrials] at h
    cases ho : oneTrial r rng k dataVals counts with
    | error e2 =>
      rw [ho] at h
      cases h
      exact trialGroups_error r rng counts dataVals _ 0 k e ho
    | ok sample =>
      rw [ho] at h
      cases hr : runTrials f r rng keys dataVals counts t
          (k + drawsPerTrial r counts) with
      | error e2 =>
        rw [hr] at h
        cases h
        exact ih _ e hr
      | ok rest => rw [hr] at h; cases h

theorem runTrials_ok_length (f : List (String × List ℚ) → ℚ) (r : ℚ)
    (rng : Nat → Nat) (keys : List String) (dataVals : List (List ℚ))
    (counts : List Nat) :
    ∀ (t k : Nat) (avs : List ℚ),
    runTrials f r rng keys dataVals counts t k = Except.ok avs →
    avs.length = t := by
  intro t
  induction t with
  | zero =>
    intro k avs h
    simp only [runTrials] at h
    cases h
    rfl
  | succ t ih =>
    intro k avs h
    simp only [runTrials] at h
    cases ho : oneTrial r rng k dataVals counts with
    | error e2 => rw [ho] at h; cases h
    | ok sample =>
      rw [ho] at h
      cases hr : runTrials f r rng keys dataVals counts t
          (k + drawsPerTrial r counts) with
      | error e2 => rw [hr] at h; cases h
      | ok rest =>
        rw [hr] at h
        cases h
        simp [ih _ _ hr]

theorem readA_allocA_lt {σ : Store} {xs : List ℚ} {j : Nat} (hj : j < σ.length) :
    readA (allocA σ xs).1 j = readA σ j := by
  simp only [readA, allocA, List.getD_eq_getElem?_getD]
  rw [List.getElem?_append_left hj]

theorem allocA_fst_length (σ : Store) (xs : List ℚ) :
    (allocA σ xs).1.length = σ.length + 1 := by
  simp [allocA]

theorem readA_writeA_ne {σ : Store} {i pos : Nat} {v : ℚ} {j : Nat} (h : j ≠ i) :
    readA (writeA σ i pos v) j = readA σ j := by
  simp only [readA, writeA, List.getD_eq_getElem?_getD]
  rw [List.getElem?_set_ne (by omega)]

theorem writeA_length (σ : Store) (i pos : Nat) (v : ℚ) :
    (writeA σ i pos v).length = σ.length := List.length_set σ i _

theorem writeLoopS_pres (destId start : Nat) (picked : List ℚ) (N : Nat)
    (hN : N ≤ destId) :
    ∀ (rem index : Nat) (σ : Store),
    (∀ j, j < N → readA (writeLoopS destId start picked σ index rem).2 j
      = readA σ j) ∧
    σ.length ≤ (writeLoopS destId start picked σ index rem).2.length := by
  intro rem
  induction rem with
  | zero => intro index σ; exact ⟨fun _ _ => rfl, Nat.le_refl _⟩
  | succ rem ih =>
    intro index σ
    cases hp : picked[index]? with
    | none =>
      have heq : writeLoopS destId start picked σ index (rem + 1)
          = (some BootErr.indexError, σ) := by
        simp only [writeLoopS, hp]
      rw [heq]
      exact ⟨fun _ _ => rfl, Nat.le_refl _⟩
    | some v =>
      by_cases hb : start + index < (readA σ destId).length
      · have heq : writeLoopS destId start picked σ index (rem + 1)
            = writeLoopS destId start picked
                (writeA σ destId (start + index) v) (index + 1) rem := by
          simp only [writeLoopS, hp, if_pos hb]
        rw [heq]
        have hrec := ih (index + 1) (writeA σ destId (start + index) v)
        refine ⟨fun j hj => ?_, ?_⟩
        · rw [hrec.1 j hj, readA_writeA_ne (by omega)]
        · have h2 := hrec.2
          rw [writeA_length] at h2
          exact h2
      · have heq : writeLoopS destId start picked σ index (rem + 1)
            = (some BootErr.indexError, σ) := by
          simp only [writeLoopS, hp, if_neg hb]
        rw [heq]
        exact ⟨fun _ _ => rfl, Nat.le_refl _⟩

theorem groupResampleArrayS_pres (start subCount : Nat) (idxs : List Nat)
    (srcId destId : Nat) (σ : Store) (N : Nat) (hN : N ≤ destId) :
    (∀ j, j < N →
      readA (groupResampleArrayS start subCount idxs srcId destId σ).2 j
        = readA σ j) ∧
    σ.length ≤ (groupResampleArrayS start subCount idxs srcId destId σ).2.length := by
  cases hf : npFancy (((readA σ srcId).drop start).take subCount) idxs with
  | error e =>
    have heq : groupResampleArrayS start subCount idxs srcId destId σ
        = (some e, σ) := by
      unfold groupResampleArrayS
      rw [hf]
    rw [heq]
    exact ⟨fun _ _ => rfl, Nat.le_refl _⟩
  | ok picked =>
    have heq : groupResampleArrayS start subCount idxs srcId destId σ
        = writeLoopS destId start picked σ 0 subCount := by
      unfold groupResampleArrayS
      rw [hf]
    rw [heq]
    exact writeLoopS_pres destId start picked N hN subCount 0 σ

theorem groupResampleDictS_pres (start subCount : Nat) (idxs : List Nat)
    (N : Nat) :
    ∀ (ids : List (Nat × Nat)) (σ : Store),
    (∀ pr ∈ ids, N ≤ pr.2) →
    (∀ j, j < N →
      readA (groupResampleDictS start subCount idxs ids σ).2 j = readA σ j) ∧
    σ.length ≤ (groupResampleDictS start subCount idxs ids σ).2.length := by
  intro ids
  induction ids with
  | nil => intro σ _; exact ⟨fun _ _ => rfl, Nat.le_refl _⟩
  | cons pr rest ih =>
    intro σ hids
    have hpr := groupResampleArrayS_pres start subCount idxs pr.1 pr.2 σ N
      (hids pr (by simp))
    cases hg : groupResampleArrayS start subCount idxs pr.1 pr.2 σ with
    | mk oe σ2 =>
      rw [hg] at hpr
      have heq : groupResampleDictS start subCount idxs (pr :: rest) σ
          = match (oe, σ2) with
            | (some e, σ2) => (some e, σ2)
            | (none, σ2) => groupResampleDictS start subCount idxs rest σ2 := by
        simp only [groupResampleDictS]
        rw [← hg]
      cases oe with
      | some e =>
        rw [heq]
        exact ⟨fun j hj => hpr.1 j hj, hpr.2⟩
      | none =>
        rw [heq]
        have hrec := ih σ2 (fun q hq => hids q (by simp [hq]))
        refine ⟨fun j hj => ?_, Nat.le_trans hpr.2 hrec.2⟩
        rw [hrec.1 j hj, hpr.1 j hj]

theorem trialGroupsS_pres (r : ℚ) (rng : Nat → Nat) (ids : List (Nat × Nat))
    (N : Nat) (hids : ∀ pr ∈ ids, N ≤ pr.2) :
    ∀ (cs : List Nat) (start k : Nat) (σ : Store),
    (∀ j, j < N → readA (trialGroupsS r rng ids cs start k σ).2 j = readA σ j) ∧
    σ.length ≤ (trialGroupsS r rng ids cs start k σ).2.length := by
  intro cs
  induction cs with
  | nil => intro start k σ; exact ⟨fun _ _ => rfl, Nat.le_refl _⟩
  | cons c cs ih =>
    intro start k σ
    have hpr := groupResampleDictS_pres start c
      (choiceList rng k c (sampleSizeOf r c)) N ids σ hids
    cases hg : groupResampleDictS start c
        (choiceList rng k c (sampleSizeOf r c)) ids σ with
    | mk oe σ2 =>
      rw [hg] at hpr
      have heq : trialGroupsS r rng ids (c :: cs) start k σ
          = match (oe, σ2) with
            | (some e, σ2) => (some e, σ2)
            | (none, σ2) =>
                trialGroupsS r rng ids cs (start + c) (k + sampleSizeOf r c) σ2 := by
        simp only [trialGroupsS]
        rw [← hg]
      cases oe with
      | some e =>
        rw [heq]
        exact ⟨fun j hj => hpr.1 j hj, hpr.2⟩
      | none =>
        rw [heq]
        have hrec := ih (start + c) (k + sampleSizeOf r c) σ2
        refine ⟨fun j hj => ?_, Nat.le_trans hpr.2 hrec.2⟩
        rw [hrec.1 j hj, hpr.1 j hj]

theorem allocSampleS_pres (N : Nat) :
    ∀ (ids : List (String × Nat)) (σ : Store), N ≤ σ.length →
    (∀ j, j < N → readA (allocSampleS ids σ).1 j = readA σ j) ∧
    σ.length ≤ (allocSampleS ids σ).1.length ∧
    ∀ pr ∈ (allocSampleS ids σ).2, σ.length ≤ pr.2 := by
  intro ids
  induction ids with
  | nil =>
    intro σ _
    exact ⟨fun _ _ => rfl, Nat.le_refl _, by simp [allocSampleS]⟩
  | cons p rest ih =>
    intro σ hN
    have h1len : (allocA σ (npZerosLike (readA σ p.2))).1.length
        = σ.length + 1 := allocA_fst_length σ _
    have hrec := ih (allocA σ (npZerosLike (readA σ p.2))).1
      (by rw [h1len]; omega)
    refine ⟨fun j hj => ?_, ?_, ?_⟩
    · show readA (allocSampleS rest (allocA σ (npZerosLike (readA σ p.2))).1).1 j
        = readA σ j
      rw [hrec.1 j hj, readA_allocA_lt (by omega)]
    · show σ.length ≤ (allocSampleS rest (allocA σ (npZerosLike (readA σ p.2))).1).1.length
      exact Nat.le_trans (by rw [h1len]; omega) hrec.2.1
    · intro pr hpr
      have hpr2 : pr = (p.1, (allocA σ (npZerosLike (readA σ p.2))).2) ∨
          pr ∈ (allocSampleS rest (allocA σ (npZerosLike (readA σ p.2))).1).2 := by
        simpa [allocSampleS] using hpr
      cases hpr2 with
      | inl hh =>
        subst hh
        simp [allocA]
      | inr hh =>
        have h3 := hrec.2.2 pr hh
        rw [h1len] at h3
        omega

theorem copyLoopS_pres (N : Nat) :
    ∀ (ids : List (String × Nat)) (σ : Store), N ≤ σ.length →
    (∀ j, j < N → readA (copyLoopS ids σ).1 j = readA σ j) ∧
    σ.length ≤ (copyLoopS ids σ).1.length ∧
    ∀ pr ∈ (copyLoopS ids σ).2, σ.length ≤ pr.2 := by
  intro ids
  induction ids with
  | nil =>
    intro σ _
    exact ⟨fun _ _ => rfl, Nat.le_refl _, by simp [copyLoopS]⟩
  | cons p rest ih =>
    intro σ hN
    have h1len : (allocA σ (readA σ p.2)).1.length = σ.length + 1 :=
      allocA_fst_length σ _
    have hrec := ih (allocA σ (readA σ p.2)).1 (by rw [h1len]; omega)
    refine ⟨fun j hj => ?_, ?_, ?_⟩
    · show readA (copyLoopS rest (allocA σ (readA σ p.2)).1).1 j = readA σ j
      rw [hrec.1 j hj, readA_allocA_lt (by omega)]
    · show σ.length ≤ (copyLoopS rest (allocA σ (readA σ p.2)).1).1.length
      exact Nat.le_trans (by rw [h1len]; omega) hrec.2.1
    · intro pr hpr
      have hpr2 : pr = (p.1, (allocA σ (readA σ p.2)).2) ∨
          pr ∈ (copyLoopS rest (allocA σ (readA σ p.2)).1).2 := by
        simpa [copyLoopS] using hpr
      cases hpr2 with
      | inl hh =>
        subst hh
        simp [allocA]
      | inr hh =>
        have h3 := hrec.2.2 pr hh
        rw [h1len] at h3
        omega

theorem runTrialsS_pres (f : List (String × List ℚ) → ℚ) (r : ℚ)
    (rng : Nat → Nat) (copyIds : List (String × Nat)) (counts : List Nat)
    (avId : Nat) (N : Nat) (hav : N ≤ avId) :
    ∀ (t trialIdx k : Nat) (σ : Store), N ≤ σ.length →
    (∀ j, j < N →
      readA (runTrialsS f r rng copyIds counts avId t trialIdx k σ).2 j
        = readA σ j) ∧
    σ.length ≤ (runTrialsS f r rng copyIds counts avId t trialIdx k σ).2.length := by
  intro t
  induction t with
  | zero => intro trialIdx k σ _; exact ⟨fun _ _ => rfl, Nat.le_refl _⟩
  | succ t ih =>
    intro trialIdx k σ hN
    have hall := allocSampleS_pres N copyIds σ hN
    have hdest : ∀ pr ∈ (copyIds.map Prod.snd).zip
        ((allocSampleS copyIds σ).2.map Prod.snd), N ≤ pr.2 := by
      intro pr hpr
      have hmem := (@List.of_mem_zip _ _ pr.1 pr.2 (copyIds.map Prod.snd)
        ((allocSampleS copyIds σ).2.map Prod.snd)
        (show (pr.1, pr.2) ∈ _ from by simpa using hpr)).2
      simp only [List.mem_map] at hmem
      obtain ⟨q, hq, hq2⟩ := hmem
      have h4 := hall.2.2 q hq
      omega
    have htg := trialGroupsS_pres r rng
      ((copyIds.map Prod.snd).zip ((allocSampleS copyIds σ).2.map Prod.snd))
      N hdest counts 0 k (allocSampleS copyIds σ).1
    cases hg : trialGroupsS r rng
        ((copyIds.map Prod.snd).zip ((allocSampleS copyIds σ).2.map Prod.snd))
        counts 0 k (allocSampleS copyIds σ).1 with
    | mk oe σ2 =>
      rw [hg] at htg
      have heq : runTrialsS f r rng copyIds counts avId (t + 1) trialIdx k σ
          = match (oe, σ2) with
            | (some e, σ2) => (some e, σ2)
            | (none, σ2) =>
                runTrialsS f r rng copyIds counts avId t (trialIdx + 1)
                  (k + drawsPerTrial r counts)
                  (writeA σ2 avId trialIdx
                    (f ((allocSampleS copyIds σ).2.map
                      (fun p => (p.1, readA σ2 p.2))))) := by
        simp only [runTrialsS]
        rw [← hg]
      cases oe with
      | some e =>
        rw [heq]
        refine ⟨fun j hj => ?_, Nat.le_trans hall.2.1 htg.2⟩
        rw [htg.1 j hj, hall.1 j hj]
      | none =>
        rw [heq]
        have hwl : (writeA σ2 avId trialIdx
            (f ((allocSampleS copyIds σ).2.map
              (fun p => (p.1, readA σ2 p.2))))).length = σ2.length :=
          writeA_length σ2 avId trialIdx _
        have hrec := ih (trialIdx + 1) (k + drawsPerTrial r counts)
          (writeA σ2 avId trialIdx
            (f ((allocSampleS copyIds σ).2.map (fun p => (p.1, readA σ2 p.2)))))
          (by rw [hwl]; exact Nat.le_trans hN (Nat.le_trans hall.2.1 htg.2))
        refine ⟨fun j hj => ?_, ?_⟩
        · rw [hrec.1 j hj, readA_writeA_ne (by omega), htg.1 j hj, hall.1 j hj]
        · have h2 := hrec.2
          rw [hwl] at h2
          exact Nat.le_trans hall.2.1 (Nat.le_trans htg.2 h2)

theorem npVar_singleton (a : ℚ) : npVar [a] = 0 := by
  simp [npVar, npMean]

theorem devsum_singleton (a : ℚ) :
    (([a] : List ℚ).map (fun x => (x - npMean [a]) ^ 2)).sum = 0 := by
  simp [npMean]

theorem mapM_getQ_ok (xs : List ℚ) : ∀ (is : List Nat),
    (∀ i ∈ is, i < xs.length) →
    is.mapM (fun i => match xs[i]? with
      | some v => Except.ok v
      | none => Except.error PyErr.indexError)
      = Except.ok (is.map (fun i => xs.getD i 0)) := by
  intro is
  induction is with
  | nil => intro _; rfl
  | cons i is ih =>
    intro hall
    have hi : i < xs.length := hall i (by simp)
    have hx : xs[i]? = some xs[i] := List.getElem?_eq_getElem hi
    simp only [List.mapM_cons, hx, ih (fun j hj => hall j (by simp [hj])),
      List.map_cons]
    simp only [Bind.bind, Except.bind, pure, Except.pure]
    congr 2
    rw [List.getD_eq_getElem?_getD, hx]
    rfl

theorem npSubscript_flat_ok (xs : List ℚ) (is : List Nat)
    (h : ∀ i ∈ is, i < xs.length) :
    npSubscript (NpData.flat xs) (some is)
      = Except.ok (NpData.flat (is.map (fun i => xs.getD i 0))) := by
  simp only [npSubscript]
  rw [mapM_getQ_ok xs is h]
  rfl

theorem hasObservable_true (a : StatisticsArray) (t : ObservableType) :
    a.hasObservable t = true := by
  cases t <;> rfl

theorem getObservable_eq_lookupData (a : StatisticsArray) (t : ObservableType) :
    a.getObservable t = a.lookupData t := by
  unfold StatisticsArray.getObservable
  rw [if_pos (hasObservable_true a t)]

theorem ratFloor_natCast (c : Nat) : Rat.floor ((c : ℚ)) = (c : Int) := by
  rw [Rat.floor_def']
  simp

theorem sampleSizeOf_one (c : Nat) : sampleSizeOf 1 c = c := by
  unfold sampleSizeOf
  rw [mul_one, ratFloor_natCast]
  simp

theorem sampleSizeOf_half_two : sampleSizeOf (1 / 2) 2 = 1 := by
  unfold sampleSizeOf
  rw [show ((2 : Nat) : ℚ) * (1 / 2) = 1 by norm_num]
  rw [show ((1 : ℚ)) = ((1 : Nat) : ℚ) by norm_num, ratFloor_natCast]
  simp

theorem oneTrial_eval_two_groups : oneTrial 1 (fun _ => 0) 0 [[10, 20, 30, 40]] [3, 1]
    = Except.ok [[10, 10, 10, 40]] := by
  simp only [oneTrial, trialGroups, sampleSizeOf_one, choiceList,
    groupResampleArray, npFancy, writeRange, npZerosLike, setSlice,
    List.mapM_cons, List.mapM_nil, Bind.bind, Except.bind, pure, Except.pure,
    List.map_cons, List.map_nil, List.zip_cons_cons, List.zip_nil_right,
    List.range_succ, List.range_zero, List.drop_zero,
    List.getElem?_cons_zero, List.getElem?_cons_succ]
  norm_num
  norm_num [List.mapM.loop, Bind.bind, Except.bind, pure, Except.pure,
    setSlice, writeRange]

theorem bootstrap_eval_mean_example : bootstrap meanOfFirst 1 1 none [("x", [1, 2, 3])] (fun _ => 0)
    = Except.ok (2, [1]) := by
  simp only [bootstrap, pyDataSize, pyCounts, runTrials, oneTrial, trialGroups,
    sampleSizeOf_one, choiceList, groupResampleArray, npFancy, writeRange,
    npZerosLike, setSlice, meanOfFirst, npMean, List.mapM_cons, List.mapM_nil,
    Bind.bind, Except.bind, pure, Except.pure, List.map_cons, List.map_nil,
    List.zip_cons_cons, List.zip_nil_right, List.isEmpty_cons, List.any_cons,
    List.any_nil, List.head?_cons, Option.map_some', Option.getD_some,
    Option.getD_none, List.length_cons, List.length_nil, List.sum_cons,
    List.sum_nil, List.range_succ, List.range_zero, List.drop_zero,
    List.getElem?_cons_zero, List.getElem?_cons_succ]
  norm_num
  norm_num [List.mapM.loop, Bind.bind, Except.bind, pure, Except.pure,
    setSlice, writeRange, npMean]

theorem bootstrap_eval_const_example : bootstrap (fun _ => 5) 1 1 none [("x", [1, 2])] (fun _ => 0)
    = Except.ok (5, [5]) := by
  simp only [bootstrap, pyDataSize, pyCounts, runTrials, oneTrial, trialGroups,
    sampleSizeOf_one, choiceList, groupResampleArray, npFancy, writeRange,
    npZerosLike, setSlice, List.mapM_cons, List.mapM_nil,
    Bind.bind, Except.bind, pure, Except.pure, List.map_cons, List.map_nil,
    List.zip_cons_cons, List.zip_nil_right, List.isEmpty_cons, List.any_cons,
    List.any_nil, List.head?_cons, Option.map_some', Option.getD_some,
    Option.getD_none, List.length_cons, List.length_nil, List.sum_cons,
    List.sum_nil, List.range_succ, List.range_zero, List.drop_zero,
    List.getElem?_cons_zero, List.getElem?_cons_succ]
  norm_num
  norm_num [List.mapM.loop, Bind.bind, Except.bind, pure, Except.pure,
    setSlice, writeRange]

/-!
## The claims
-/

/-- Claim C1: stratified resampling never crosses group boundaries.  For
every successful bootstrap trial (`oneTrial` is the body of the iteration
loop, at an arbitrary draw offset `k`), for every group `g` of the
partition and every offset `j` inside that group, the resampled value
written at the absolute position `groupStart counts g + j` of any named
series is one of the original values of group `g` of that series (the
slice of length `counts[g]` starting at the group's offset).  In
particular, for a singleton group the slot always equals the group's
single original element. -/
theorem oneTrial_stratified (r : ℚ) (rng : Nat → Nat) (k : Nat)
    (dataVals : List (List ℚ)) (counts : List Nat) (out : List (List ℚ))
    (hrun : oneTrial r rng k dataVals counts = Except.ok out)
    (g : Nat) (hg : g < counts.length) (j : Nat) (hj : j < counts.getD g 0)
    (i : Nat) (d : List ℚ) (hd : dataVals[i]? = some d) :
    ∃ o v, out[i]? = some o ∧ o[groupStart counts g + j]? = some v ∧
      v ∈ (d.drop (groupStart counts g)).take (counts.getD g 0) := by
  have hlen : (dataVals.map npZerosLike).length = dataVals.length :=
    List.length_map _ _
  have hid : i < dataVals.length := by
    by_contra hc
    rw [List.getElem?_eq_none (by omega)] at hd
    cases hd
  have h := trialGroups_ok_mem r rng counts dataVals (dataVals.map npZerosLike)
    out 0 k hlen hrun g hg j hj i d hd (by rw [hlen]; exact hid)
  simpa [groupStart] using h

/-- Witness for C1: two groups of sizes 3 and 1 over the series
`[10, 20, 30, 40]`; the slot of the second (singleton) group holds a value
of that group, hence its single element 40. -/
theorem oneTrial_stratified_witness :
    ∃ o v, ([[10, 10, 10, 40]] : List (List ℚ))[0]? = some o ∧
      o[groupStart [3, 1] 1 + 0]? = some v ∧
      v ∈ ((([10, 20, 30, 40] : List ℚ).drop (groupStart [3, 1] 1)).take
        (([3, 1] : List Nat).getD 1 0)) :=
  oneTrial_stratified 1 (fun _ => 0) 0 [[10, 20, 30, 40]] [3, 1]
    [[10, 10, 10, 40]] oneTrial_eval_two_groups 1 (by decide) 0 (by decide) 0
    [10, 20, 30, 40] rfl

/-- Claim C2 (the code violates it): with `relative_sample_size = 1/2` and
a single group of two elements the very first trial raises a numpy
`IndexError`, because the loop of source line 374 runs over
`range(sub_count)` while `sub_data[sample_indices]` has only
`sample_size = floor(sub_count * relative_sample_size) = 1` entries.  The
claim says every trial completes with a smaller per-group resample; the
code crashes instead. -/
theorem bootstrap_undersized_group_raises :
    bootstrap (fun _ => 0) 1 (1 / 2) none [("x", [1, 2])] (fun _ => 0)
      = Except.error BootErr.indexError := by
  have key : ∀ r : ℚ, sampleSizeOf r 2 = 1 →
      bootstrap (fun _ => 0) 1 r none [("x", [1, 2])] (fun _ => 0)
        = Except.error BootErr.indexError := by
    intro r hr
    simp only [bootstrap, pyDataSize, pyCounts, runTrials, oneTrial,
      trialGroups, choiceList, hr, groupResampleArray, npFancy, writeRange,
      npZerosLike, List.mapM_cons, List.mapM_nil, Bind.bind, Except.bind, pure,
      Except.pure, List.map_cons, List.map_nil, List.zip_cons_cons,
      List.zip_nil_right, List.isEmpty_cons, List.any_cons, List.any_nil,
      List.head?_cons, Option.map_some', Option.getD_some, Option.getD_none,
      List.length_cons, List.length_nil, List.sum_cons, List.sum_nil,
      List.range_succ, List.range_zero, List.drop_zero, List.take_cons,
      List.getElem?_cons_zero, List.getElem?_cons_succ, hr]
    norm_num
    norm_num [List.mapM.loop, Bind.bind, Except.bind, pure, Except.pure]
  exact key (1 / 2) sampleSizeOf_half_two

/-- Claim C3: the returned point estimate is the aggregation function
evaluated once on the original, unresampled full data, for every
successful call, regardless of the iteration count and the sample
fraction. -/
theorem bootstrap_estimate_unresampled (f : List (String × List ℚ) → ℚ)
    (it : Nat) (r : ℚ) (dsc : Option (List Nat))
    (data : List (String × List ℚ)) (rng : Nat → Nat) (out : ℚ × List ℚ)
    (h : bootstrap f it r dsc data rng = Except.ok out) :
    out.1 = f data := by
  unfold bootstrap at h
  split at h
  · cases h
  · split at h
    · cases h
    · split at h
      · cases h
      · split at h
        · cases h
        · cases h
          rfl

/-- Witness for C3: aggregation = arithmetic mean, input `[1, 2, 3]`; the
returned estimate is 2 (the mean of the original data, not of the
trials). -/
theorem bootstrap_estimate_unresampled_witness :
    ((2 : ℚ), [(1 : ℚ)]).1 = meanOfFirst [("x", [1, 2, 3])] :=
  bootstrap_estimate_unresampled meanOfFirst 1 1 none [("x", [1, 2, 3])]
    (fun _ => 0) (2, [1]) bootstrap_eval_mean_example

/-- Claim C4: the returned uncertainty is the population standard
deviation of the per-trial aggregates: the square root of the mean of the
squared deviations, dividing by the iteration count (the second component
of the model's result is `average_values`, and the source returns its
`.std()`).  It is non-negative, and with `iterations = 1` the single
trial's aggregate has zero deviation, so the uncertainty is 0. -/
theorem bootstrap_uncertainty_population_std (f : List (String × List ℚ) → ℚ)
    (it : Nat) (r : ℚ) (dsc : Option (List Nat))
    (data : List (String × List ℚ)) (rng : Nat → Nat) (out : ℚ × List ℚ)
    (h : bootstrap f it r dsc data rng = Except.ok out) (hit : 1 ≤ it) :
    out.2.length = it ∧
    Real.sqrt ((npVar out.2 : ℚ) : ℝ)
      = Real.sqrt ((((out.2.map (fun x => (x - npMean out.2) ^ 2)).sum
          / (it : ℚ) : ℚ) : ℝ)) ∧
    0 ≤ Real.sqrt ((npVar out.2 : ℚ) : ℝ) ∧
    (it = 1 → npVar out.2 = 0
      ∧ (out.2.map (fun x => (x - npMean out.2) ^ 2)).sum = 0) := by
  unfold bootstrap at h
  split at h
  · cases h
  · split at h
    · cases h
    · split at h
      · cases h
      · split at h
        · cases h
        · next avs hrt =>
          cases h
          have hlen : avs.length = it :=
            runTrials_ok_length _ _ _ _ _ _ _ _ _ hrt
          have hvar : npVar avs
              = (avs.map (fun x => (x - npMean avs) ^ 2)).sum / (it : ℚ) := by
            unfold npVar
            rw [hlen]
          refine ⟨hlen, ?_, Real.sqrt_nonneg _, ?_⟩
          · rw [hvar]
          · intro h1
            subst h1
            cases avs with
            | nil => simp at hlen
            | cons a rest =>
              cases rest with
              | nil => exact ⟨npVar_singleton a, devsum_singleton a⟩
              | cons b r2 => simp at hlen

/-- Witness for C4: a constant aggregation function with one iteration;
the uncertainty data evaluates with a zero variance. -/
theorem bootstrap_uncertainty_population_std_witness :
    ([(5 : ℚ)].length = 1) ∧
    Real.sqrt ((npVar [(5 : ℚ)] : ℚ) : ℝ)
      = Real.sqrt (((([(5 : ℚ)].map (fun x => (x - npMean [(5 : ℚ)]) ^ 2)).sum
          / ((1 : Nat) : ℚ) : ℚ) : ℝ)) ∧
    0 ≤ Real.sqrt ((npVar [(5 : ℚ)] : ℚ) : ℝ) ∧
    ((1 : Nat) = 1 → npVar [(5 : ℚ)] = 0
      ∧ ([(5 : ℚ)].map (fun x => (x - npMean [(5 : ℚ)]) ^ 2)).sum = 0) :=
  bootstrap_uncertainty_population_std (fun _ => 5) 1 1 none [("x", [1, 2])]
    (fun _ => 0) (5, [5]) bootstrap_eval_const_example (by decide)

/-- Claim C5: `bootstrap` fails with a validation error exactly when no
named series is supplied, or two supplied series have unequal lengths, or
the partition's counts do not sum to the total length; and in that case
the failure happens before any trial, so the result does not depend on
the aggregation function (it is never called). -/
theorem bootstrap_validation_iff (f : List (String × List ℚ) → ℚ) (it : Nat)
    (r : ℚ) (dsc : Option (List Nat)) (data : List (String × List ℚ))
    (rng : Nat → Nat) :
    (resultValidationError (bootstrap f it r dsc data rng) = true ↔
      (data = [] ∨ (∃ p ∈ data, ∃ q ∈ data, p.2.length ≠ q.2.length) ∨
        (pyCounts dsc data).sum ≠ pyDataSize data)) ∧
    (resultValidationError (bootstrap f it r dsc data rng) = true →
      ∀ g2 : List (String × List ℚ) → ℚ,
        bootstrap g2 it r dsc data rng = bootstrap f it r dsc data rng) := by
  by_cases hA : data.isEmpty
  · have hdata : data = [] := List.isEmpty_iff.mp hA
    subst hdata
    constructor
    · simp [bootstrap, resultValidationError, isValidationError]
    · intro _ g2
      simp [bootstrap]
  · have hne : data ≠ [] := fun hc => by simp [hc] at hA
    by_cases hB : data.any (fun p => p.2.length ≠ pyDataSize data)
    · have hres2 : ∀ g2 : List (String × List ℚ) → ℚ,
          bootstrap g2 it r dsc data rng
            = Except.error BootErr.unequalLengths := by
        intro g2
        unfold bootstrap
        rw [if_neg hA, if_pos hB]
      constructor
      · rw [hres2 f]
        constructor
        · intro _
          right; left
          simp only [List.any_eq_true, decide_eq_true_eq] at hB
          obtain ⟨p, hp, hpne⟩ := hB
          obtain ⟨q0, data2, hq⟩ : ∃ q0 data2, data = q0 :: data2 := by
            cases data with
            | nil => exact absurd rfl hne
            | cons a l => exact ⟨a, l, rfl⟩
          refine ⟨p, hp, q0, by rw [hq]; exact List.mem_cons_self q0 data2, ?_⟩
          have hsz : pyDataSize data = q0.2.length := by rw [hq]; rfl
          rw [← hsz]
          exact hpne
        · intro _
          rfl
      · intro _ g2
        rw [hres2 f, hres2 g2]
    · by_cases hC : (pyCounts dsc data).sum ≠ pyDataSize data
      · have hres2 : ∀ g2 : List (String × List ℚ) → ℚ,
            bootstrap g2 it r dsc data rng
              = Except.error BootErr.badSubCounts := by
          intro g2
          unfold bootstrap
          rw [if_neg hA, if_neg hB, if_pos hC]
        constructor
        · rw [hres2 f]
          constructor
          · intro _
            exact Or.inr (Or.inr hC)
          · intro _
            rfl
        · intro _ g2
          rw [hres2 f, hres2 g2]
      · push_neg at hC
        have hgoal : resultValidationError (bootstrap f it r dsc data rng)
            = false := by
          unfold bootstrap
          rw [if_neg hA, if_neg hB, if_neg (by omega)]
          cases hr : runTrials f r rng (data.map Prod.fst) (data.map Prod.snd)
              (pyCounts dsc data) it 0 with
          | error e =>
            have he := runTrials_error _ _ _ _ _ _ _ _ _ hr
            subst he
            rfl
          | ok avs => rfl
        constructor
        · rw [hgoal]
          constructor
          · intro hfalse
            cases hfalse
          · intro hcond
            exfalso
            rcases hcond with h1 | h2 | h3
            · exact hne h1
            · obtain ⟨p, hp, q, hq, hne2⟩ := h2
              simp only [List.any_eq_true, decide_eq_true_eq, not_exists,
                not_and, not_not] at hB
              have hall : ∀ x ∈ data, x.2.length = pyDataSize data := by
                intro x hx
                by_contra hxx
                exact hxx (hB x hx)
              exact hne2 (by rw [hall p hp, hall q hq])
            · exact h3 hC
        · intro hcontra
          rw [hgoal] at hcontra
          cases hcontra

/-- Witness for C5: named series of lengths 1 and 2 make the call fail
with a validation error. -/
theorem bootstrap_validation_iff_witness :
    resultValidationError (bootstrap (fun _ => 0) 1 1 none
      [("x", [1]), ("y", [1, 2])] (fun _ => 0)) = true :=
  (bootstrap_validation_iff (fun _ => 0) 1 1 none [("x", [1]), ("y", [1, 2])]
    (fun _ => 0)).1.mpr
    (Or.inr (Or.inl ⟨("x", [1]), by simp, ("y", [1, 2]), by simp, by simp⟩))

/-- Claim C6 (the code violates it): `has_observable` tests key membership
in the `_internal_data` dict, but the constructor always inserts all seven
keys, so it returns `True` for every channel kind, also for a channel that
was never supplied; for a series without Enthalpy, `has(Enthalpy)` is
`True` (the claim says `False`) while `get(Enthalpy)` does return the
absent sentinel. -/
theorem has_observable_always_true_bug :
    (∀ (a : StatisticsArray) (t : ObservableType), a.hasObservable t = true) ∧
    c6NoEnthalpy.hasObservable ObservableType.Enthalpy = true ∧
    c6NoEnthalpy.getObservable ObservableType.Enthalpy = none := by
  refine ⟨hasObservable_true, rfl, rfl⟩

/-- Counterexample to C7: deriving a sub-series with indices `[0, 0, 2]`
from a 3-frame series whose Enthalpy channel is absent does not produce a
series with the channel still absent — it raises a `TypeError`, because
`from_statistics_array` subscripts the `None` stored for the channel. -/
theorem from_statistics_array_absent_channel_raises :
    fromStatisticsArray c7SourceNoEnthalpy (some [0, 0, 2])
      = Except.error PyErr.typeError := by
  rfl

/-- Claim C7 as amended: for a source whose seven channels are all present
(1-d, equal length `n`) and any ordered index list with entries below `n`
(duplicates and out-of-order allowed), the derivation returns a new series
holding, for every channel, exactly the selected frames in the given
order. -/
theorem from_statistics_array_selects_frames (pe ke te tm vo de en : List ℚ)
    (n : Nat) (idxs : List Nat)
    (h1 : pe.length = n) (h2 : ke.length = n) (h3 : te.length = n)
    (h4 : tm.length = n) (h5 : vo.length = n) (h6 : de.length = n)
    (h7 : en.length = n) (hidx : ∀ i ∈ idxs, i < n) :
    fromStatisticsArray
      ⟨some (NpData.flat pe), some (NpData.flat ke), some (NpData.flat te),
       some (NpData.flat tm), some (NpData.flat vo), some (NpData.flat de),
       some (NpData.flat en)⟩ (some idxs)
    = Except.ok
      ⟨some (NpData.flat (idxs.map (fun i => pe.getD i 0))),
       some (NpData.flat (idxs.map (fun i => ke.getD i 0))),
       some (NpData.flat (idxs.map (fun i => te.getD i 0))),
       some (NpData.flat (idxs.map (fun i => tm.getD i 0))),
       some (NpData.flat (idxs.map (fun i => vo.getD i 0))),
       some (NpData.flat (idxs.map (fun i => de.getD i 0))),
       some (NpData.flat (idxs.map (fun i => en.getD i 0)))⟩ := by
  have g1 := npSubscript_flat_ok pe idxs (fun i hi => h1 ▸ hidx i hi)
  have g2 := npSubscript_flat_ok ke idxs (fun i hi => h2 ▸ hidx i hi)
  have g3 := npSubscript_flat_ok te idxs (fun i hi => h3 ▸ hidx i hi)
  have g4 := npSubscript_flat_ok tm idxs (fun i hi => h4 ▸ hidx i hi)
  have g5 := npSubscript_flat_ok vo idxs (fun i hi => h5 ▸ hidx i hi)
  have g6 := npSubscript_flat_ok de idxs (fun i hi => h6 ▸ hidx i hi)
  have g7 := npSubscript_flat_ok en idxs (fun i hi => h7 ▸ hidx i hi)
  simp only [fromStatisticsArray, getObservable_eq_lookupData,
    StatisticsArray.lookupData, npSubscriptChannel, g1, g2, g3, g4, g5, g6, g7,
    Bind.bind, Except.bind]

/-- Witness for C7 (amended): indices `[0, 0, 2]` applied to a 3-frame
series with all channels present yield, channel-wise, the frames 0, 0 and
2 in that order. -/
theorem from_statistics_array_selects_frames_witness :
    fromStatisticsArray
      ⟨some (NpData.flat [1, 2, 3]), some (NpData.flat [4, 5, 6]),
       some (NpData.flat [5, 7, 9]), some (NpData.flat [300, 301, 302]),
       some (NpData.flat [1, 1, 1]), some (NpData.flat [2, 2, 2]),
       some (NpData.flat [7, 8, 9])⟩ (some [0, 0, 2])
    = Except.ok
      ⟨some (NpData.flat [1, 1, 3]), some (NpData.flat [4, 4, 6]),
       some (NpData.flat [5, 5, 9]), some (NpData.flat [300, 300, 302]),
       some (NpData.flat [1, 1, 1]), some (NpData.flat [2, 2, 2]),
       some (NpData.flat [7, 7, 9])⟩ :=
  from_statistics_array_selects_frames [1, 2, 3] [4, 5, 6] [5, 7, 9]
    [300, 301, 302] [1, 1, 1] [2, 2, 2] [7, 8, 9] 3 [0, 0, 2]
    rfl rfl rfl rfl rfl rfl rfl (by decide)

/-- Counterexample to C8: exporting a series whose Enthalpy channel is
absent does not omit the column — `save_as_pandas_csv` divides all seven
channels by their units unconditionally, and `None / unit` raises a
`TypeError`. -/
theorem save_csv_absent_enthalpy_raises :
    saveAsPandasCsv c8ArrNoEnthalpy = Except.error PyErr.typeError := by
  rfl

/-- Claim C8 as amended: for a series with all seven channels present,
export writes the seven named columns and re-import yields exactly the
original channel data (exact equality in the rational model); the
Enthalpy column's absence is tolerated on re-import, yielding an
enthalpy-absent series. -/
theorem csv_round_trip_all_channels (pe ke te tm vo de en : List ℚ) :
    saveAsPandasCsv
      ⟨some (NpData.flat pe), some (NpData.flat ke), some (NpData.flat te),
       some (NpData.flat tm), some (NpData.flat vo), some (NpData.flat de),
       some (NpData.flat en)⟩
    = Except.ok [("Potential Energy (kJ/mole)", pe),
        ("Kinetic Energy (kJ/mole)", ke), ("Total Energy (kJ/mole)", te),
        ("Temperature (K)", tm), ("Box Volume (nm^3)", vo),
        ("Density (g/mL)", de), ("Enthalpy (kJ/mole)", en)] ∧
    fromPandasCsv [("Potential Energy (kJ/mole)", pe),
        ("Kinetic Energy (kJ/mole)", ke), ("Total Energy (kJ/mole)", te),
        ("Temperature (K)", tm), ("Box Volume (nm^3)", vo),
        ("Density (g/mL)", de), ("Enthalpy (kJ/mole)", en)]
      = Except.ok
        ⟨some (NpData.flat pe), some (NpData.flat ke), some (NpData.flat te),
         some (NpData.flat tm), some (NpData.flat vo), some (NpData.flat de),
         some (NpData.flat en)⟩ ∧
    fromPandasCsv [("Potential Energy (kJ/mole)", pe),
        ("Kinetic Energy (kJ/mole)", ke), ("Total Energy (kJ/mole)", te),
        ("Temperature (K)", tm), ("Box Volume (nm^3)", vo),
        ("Density (g/mL)", de)]
      = Except.ok
        ⟨some (NpData.flat pe), some (NpData.flat ke), some (NpData.flat te),
         some (NpData.flat tm), some (NpData.flat vo), some (NpData.flat de),
         none⟩ := by
  refine ⟨rfl, ?_, ?_⟩
  · rfl
  · rfl

/-- Claim C9: `bootstrap` never mutates the caller-supplied arrays.  In
the store-passing model every caller array (a store index below the
initial store size) holds the same contents after the call as before it,
whatever the outcome, the iteration count, the partition or the sample
fraction: all stores target the freshly allocated copies, sample arrays
and `average_values`. -/
theorem bootstrapS_no_mutation (f : List (String × List ℚ) → ℚ) (it : Nat)
    (r : ℚ) (dsc : Option (List Nat)) (dataIds : List (String × Nat))
    (rng : Nat → Nat) (σ : Store)
    (hids : ∀ p ∈ dataIds, p.2 < σ.length) :
    ∀ p ∈ dataIds,
      readA (bootstrapS f it r dsc dataIds rng σ).2 p.2 = readA σ p.2 := by
  intro p hp
  have hpN : p.2 < σ.length := hids p hp
  have hcp := copyLoopS_pres σ.length dataIds σ (Nat.le_refl _)
  unfold bootstrapS
  split
  · rfl
  · split
    · exact hcp.1 p.2 hpN
    · split
      · exact hcp.1 p.2 hpN
      · have halen : (allocA (copyLoopS dataIds σ).1
            (List.replicate it 0)).1.length
            = (copyLoopS dataIds σ).1.length + 1 := allocA_fst_length _ _
        have havid : (allocA (copyLoopS dataIds σ).1 (List.replicate it 0)).2
            = (copyLoopS dataIds σ).1.length := rfl
        have hrt := runTrialsS_pres f r rng (copyLoopS dataIds σ).2
          (dsc.getD [pyDataSizeS σ dataIds])
          (allocA (copyLoopS dataIds σ).1 (List.replicate it 0)).2
          σ.length (by rw [havid]; exact hcp.2.1)
          it 0 0
          (allocA (copyLoopS dataIds σ).1 (List.replicate it 0)).1
          (by rw [halen]; exact Nat.le_trans hcp.2.1 (by omega))
        cases hm : runTrialsS f r rng (copyLoopS dataIds σ).2
            (dsc.getD [pyDataSizeS σ dataIds])
            (allocA (copyLoopS dataIds σ).1 (List.replicate it 0)).2
            it 0 0 (allocA (copyLoopS dataIds σ).1 (List.replicate it 0)).1 with
        | mk oe σ3 =>
          rw [hm] at hrt
          have hchain : readA σ3 p.2 = readA σ p.2 := by
            rw [hrt.1 p.2 hpN, readA_allocA_lt (by omega), hcp.1 p.2 hpN]
          cases oe with
          | some e => exact hchain
          | none => exact hchain

/-- Witness for C9: a store holding one caller array `[1, 2, 3]` passed as
the series named x; after the call the array is unchanged. -/
theorem bootstrapS_no_mutation_witness :
    readA (bootstrapS (fun _ => 0) 2 1 none [("x", 0)] (fun _ => 0)
      [[1, 2, 3]]).2 0 = readA [[1, 2, 3]] 0 :=
  bootstrapS_no_mutation (fun _ => 0) 2 1 none [("x", 0)] (fun _ => 0)
    [[1, 2, 3]] (by decide) ("x", 0) (by decide)

/-- Claim C10: calling the sub-series derivation with its default
(`data_indices = None`) does not copy the frames one-to-one: numpy
indexing with `None` inserts a new leading axis, so every channel of the
result is a 1 × N nested array, and the resulting container reports
length 1 whatever the source length N. -/
theorem from_statistics_array_default_newaxis (pe ke te tm vo de en : List ℚ) :
    fromStatisticsArray
      ⟨some (NpData.flat pe), some (NpData.flat ke), some (NpData.flat te),
       some (NpData.flat tm), some (NpData.flat vo), some (NpData.flat de),
       some (NpData.flat en)⟩ none
    = Except.ok
      ⟨some (NpData.nest [NpData.flat pe]), some (NpData.nest [NpData.flat ke]),
       some (NpData.nest [NpData.flat te]), some (NpData.nest [NpData.flat tm]),
       some (NpData.nest [NpData.flat vo]), some (NpData.nest [NpData.flat de]),
       some (NpData.nest [NpData.flat en])⟩ ∧
    (⟨some (NpData.nest [NpData.flat pe]), some (NpData.nest [NpData.flat ke]),
      some (NpData.nest [NpData.flat te]), some (NpData.nest [NpData.flat tm]),
      some (NpData.nest [NpData.flat vo]), some (NpData.nest [NpData.flat de]),
      some (NpData.nest [NpData.flat en])⟩ : StatisticsArray).pyLen
      = Except.ok 1 := by
  constructor
  · rfl
  · rfl
